import Mathlib

/-!
Shallow embedding of `scripts/silero_generate.py` (book2mp3 repository).

The script's self-contained logic is: a rate-string parser (`parse_rate`),
two threshold classifiers (`ssml_rate_to_keyword`, `ssml_pitch_to_keyword`),
an SSML wrapper (`wrap_with_ssml`), a resampling time-stretch
(`time_stretch`), model selection by substring containment on the model id
(`chooseModel`), and the final 16-bit quantization (`quantizeSample`).
Python floats are modelled as exact rationals; Python strings as Lean
`String` values (lists of characters); Python's optional arguments as
`Option`.
-/

/-- All characters of the list are decimal digits (the `\d+` part of the
regex `^([+-])(\d+)%$`). -/
def isDigits (cs : List Char) : Bool :=
  cs.all Char.isDigit

/-- Numeric value of a decimal digit string, as Python's `int` computes it. -/
def digitsVal (cs : List Char) : ℕ :=
  cs.foldl (fun acc c => 10 * acc + (c.toNat - 48)) 0

/-- The regex match `re.match(r'^([+-])(\d+)%$', rate_str)` inside
`parse_rate`: a sign character, a nonempty run of digits, a percent sign,
end of string.  Returns the captured sign and the numeric value of the
captured digits, or `none` when the string does not match. -/
def matchSignedPercent (cs : List Char) : Option (Char × ℕ) :=
  match cs with
  | [] => none
  | c :: rest =>
    if c == '+' || c == '-' then
      if rest.getLast? == some '%' then
        let ds := rest.dropLast
        if !ds.isEmpty && isDigits ds then some (c, digitsVal ds) else none
      else none
    else none

/-- `parse_rate` on the character list of its argument: empty input and
non-matching input yield the identity multiplier `1.0`; a match yields
`1 + percent/100` for sign `+` and `1 - percent/100` for sign `-`. -/
def parseRateChars (cs : List Char) : ℚ :=
  if cs.isEmpty then 1
  else
    match matchSignedPercent cs with
    | some (sign, percent) =>
        if sign == '+' then 1 + (percent : ℚ) / 100
        else 1 - (percent : ℚ) / 100
    | none => 1

/-- `parse_rate(rate_str)` from the script. -/
def parse_rate (s : String) : ℚ :=
  parseRateChars s.data

/-- The shape required by the regex `^([+-])(\d+)%$`, stated independently
of the matcher: a sign, a nonempty all-digit run, a percent sign, nothing
else. -/
def RateForm (cs : List Char) (sign : Char) (ds : List Char) : Prop :=
  (sign = '+' ∨ sign = '-') ∧ ds ≠ [] ∧ (∀ c ∈ ds, c.isDigit = true) ∧
    cs = sign :: ds ++ ['%']

/-- `ssml_rate_to_keyword(rate_value)` from the script. -/
def ssml_rate_to_keyword (rate_value : ℚ) : String :=
  if rate_value ≤ 6/10 then "x-slow"
  else if rate_value ≤ 8/10 then "slow"
  else if rate_value ≤ 12/10 then "medium"
  else if rate_value ≤ 15/10 then "fast"
  else "x-fast"

/-- `ssml_pitch_to_keyword(pitch_value)` from the script. -/
def ssml_pitch_to_keyword (pitch_value : ℚ) : String :=
  if pitch_value ≤ 6/10 then "x-low"
  else if pitch_value ≤ 8/10 then "low"
  else if pitch_value ≤ 12/10 then "medium"
  else if pitch_value ≤ 15/10 then "high"
  else "x-high"

/-- Position of a prosody keyword in the ordered five-level scale
x-slow/x-low < slow/low < medium < fast/high < x-fast/x-high. -/
def prosodyLevel (kw : String) : ℕ :=
  if kw = "x-slow" then 0
  else if kw = "x-low" then 0
  else if kw = "slow" then 1
  else if kw = "low" then 1
  else if kw = "medium" then 2
  else if kw = "fast" then 3
  else if kw = "high" then 3
  else 4

/-- Python truthiness of an optional float, as used by
`ssml_rate_to_keyword(rate) if rate else None`: `None` and `0.0` are
falsy, every other value truthy. -/
def pyTruthy (x : Option ℚ) : Bool :=
  match x with
  | none => false
  | some r => !(r == 0)

/-- `wrap_with_ssml(text, rate, pitch)` from the script: compute the two
keywords (only for truthy arguments), wrap in a `<speak><prosody ...>`
envelope only when some keyword differs from `"medium"`, and report
whether wrapping happened. -/
def wrap_with_ssml (text : String) (rate : Option ℚ) (pitch : Option ℚ) :
    String × Bool :=
  let rate_kw : Option String :=
    if pyTruthy rate then some (ssml_rate_to_keyword (rate.getD 0)) else none
  let pitch_kw : Option String :=
    if pyTruthy pitch then some (ssml_pitch_to_keyword (pitch.getD 0)) else none
  let rate_nondef : Bool :=
    match rate_kw with
    | some k => k != "medium"
    | none => false
  let pitch_nondef : Bool :=
    match pitch_kw with
    | some k => k != "medium"
    | none => false
  if rate_nondef || pitch_nondef then
    let prosody_attrs : List String :=
      (match rate_kw with
       | some k => if k != "medium" then ["rate=\"" ++ k ++ "\""] else []
       | none => []) ++
      (match pitch_kw with
       | some k => if k != "medium" then ["pitch=\"" ++ k ++ "\""] else []
       | none => [])
    let attrs_str := String.intercalate " " prosody_attrs
    ("<speak><prosody " ++ attrs_str ++ ">" ++ text ++ "</prosody></speak>", true)
  else
    (text, false)

/-- Python's `int()` applied to a real value: truncation toward zero. -/
def pyTrunc (q : ℚ) : ℤ :=
  if 0 ≤ q then ⌊q⌋ else -⌊-q⌋

/-- Modelled from the spec: `scipy.signal.resample` is an external library
function, not part of this repository.  The spec describes it only as
frequency-domain resampling producing a waveform of the requested length,
so only that length contract is modelled; sample values are taken by
nearest-index sampling. -/
def resample (audio : List ℚ) (num : ℕ) : List ℚ :=
  (List.range num).map (fun i => audio.getD (i * audio.length / num) 0)

/-- `time_stretch(audio, factor)` from the script: identity at factor
`1.0`, otherwise resampling to `int(len(audio) / factor)` samples. -/
def time_stretch (audio : List ℚ) (factor : ℚ) : List ℚ :=
  if factor = 1 then audio
  else resample audio (pyTrunc ((audio.length : ℚ) / factor)).toNat

/-- numpy's `astype(np.int16)` on a real value: truncation toward zero,
then wrap-around modulo 2^16 into the signed 16-bit range. -/
def np_astype_int16 (q : ℚ) : ℤ :=
  let v := pyTrunc q % 65536
  if v < 32768 then v else v - 65536

/-- The quantization step `(audio * 32767).astype(np.int16)` applied to a
single sample. -/
def quantizeSample (x : ℚ) : ℤ :=
  np_astype_int16 (x * 32767)

/-- Substring test on character lists, as Python's `in` on strings:
the needle occurs contiguously somewhere in the haystack. -/
def hasSub (needle : List Char) : List Char → Bool
  | [] => needle.isEmpty
  | c :: rest => needle.isPrefixOf (c :: rest) || hasSub needle rest

/-- Python's `needle in hay` on strings. -/
def strContains (needle hay : String) : Bool :=
  hasSub needle.data hay.data

/-- `p` occurs contiguously inside `s`, stated by explicit decomposition. -/
def SubstringOf (p s : String) : Prop :=
  ∃ l1 l2 : List Char, s.data = l1 ++ p.data ++ l2

/-- The language/model dispatch of `main`: `'ru' in model_id` selects
language `ru` and model `v5_ru`; otherwise `'en' in model_id` selects
language `en` and model `v3_en`; otherwise a `ValueError` is raised. -/
def chooseModel (model_id : String) : Except String (String × String) :=
  if strContains "ru" model_id then Except.ok ("ru", "v5_ru")
  else if strContains "en" model_id then Except.ok ("en", "v3_en")
  else Except.error ("Unknown language in model: " ++ model_id)

/-! ### Supporting lemmas -/

/-- The matcher accepts exactly the strings of the regex shape, producing
the captured sign and digit value. -/
lemma matchSignedPercent_of_form (sign : Char) (ds : List Char)
    (hsign : sign = '+' ∨ sign = '-') (hne : ds ≠ [])
    (hdig : ∀ c ∈ ds, c.isDigit = true) :
    matchSignedPercent (sign :: ds ++ ['%']) = some (sign, digitsVal ds) := by
  have h1 : (sign == '+' || sign == '-') = true := by
    rcases hsign with h | h <;> simp [h]
  have h2 : (ds ++ ['%']).getLast? = some '%' := List.getLast?_concat ds
  have h3 : (ds ++ ['%']).dropLast = ds := List.dropLast_concat
  have h4 : ds.isEmpty = false := List.isEmpty_eq_false.2 hne
  have h5 : isDigits ds = true := by
    simp [isDigits, List.all_eq_true]
    intro c hc
    exact hdig c hc
  simp [matchSignedPercent, h1, h2, h3, h4, h5]

/-- Evaluation of `parse_rate` on a string of the regex shape. -/
lemma parse_rate_form_eval (sign : Char) (ds : List Char)
    (hsign : sign = '+' ∨ sign = '-') (hne : ds ≠ [])
    (hdig : ∀ c ∈ ds, c.isDigit = true) :
    parse_rate (String.mk (sign :: ds ++ ['%'])) =
      if sign = '+' then 1 + (digitsVal ds : ℚ) / 100
      else 1 - (digitsVal ds : ℚ) / 100 := by
  have hmk : (String.mk (sign :: ds ++ ['%'])).data = sign :: ds ++ ['%'] := rfl
  have hmatch := matchSignedPercent_of_form sign ds hsign hne hdig
  rw [List.cons_append] at hmatch
  unfold parse_rate
  rw [hmk, List.cons_append]
  rcases hsign with h | h <;> subst h <;>
    simp [parseRateChars, hmatch]

/-- A successful match implies the regex shape. -/
lemma rateForm_of_match {cs : List Char} {sign : Char} {n : ℕ}
    (h : matchSignedPercent cs = some (sign, n)) :
    ∃ ds, RateForm cs sign ds ∧ n = digitsVal ds := by
  match cs with
  | [] => simp [matchSignedPercent] at h
  | c :: rest =>
    rw [show matchSignedPercent (c :: rest) =
        (if c == '+' || c == '-' then
          if rest.getLast? == some '%' then
            if !rest.dropLast.isEmpty && isDigits rest.dropLast then
              some (c, digitsVal rest.dropLast)
            else none
          else none
        else none) from rfl] at h
    by_cases h1 : (c == '+' || c == '-') = true
    · rw [if_pos h1] at h
      by_cases h2 : (rest.getLast? == some '%') = true
      · rw [if_pos h2] at h
        by_cases h3 : (!rest.dropLast.isEmpty && isDigits rest.dropLast) = true
        · rw [if_pos h3] at h
          have hcs : c = sign ∧ n = digitsVal rest.dropLast := by
            have := Option.some.inj h
            exact ⟨congrArg Prod.fst this, (congrArg Prod.snd this).symm⟩
          obtain ⟨hc, hn⟩ := hcs
          have hlast : rest.getLast? = some '%' := by
            simpa using h2
          obtain ⟨l', hl'⟩ := List.getLast?_eq_some_iff.1 hlast
          have hdrop : rest.dropLast = l' := by
            rw [hl']
            exact List.dropLast_concat
          have h3' := h3
          rw [Bool.and_eq_true] at h3'
          refine ⟨rest.dropLast, ⟨?_, ?_, ?_, ?_⟩, hn⟩
          · have h1' := h1
            rw [Bool.or_eq_true] at h1'
            rcases h1' with hh | hh
            · left
              rw [← hc]
              exact eq_of_beq hh
            · right
              rw [← hc]
              exact eq_of_beq hh
          · intro hnil
            rw [hnil] at h3'
            simp at h3'
          · intro ch hch
            have hall := h3'.2
            simp [isDigits, List.all_eq_true] at hall
            exact hall ch hch
          · rw [← hc, hdrop]
            simp [hl', List.cons_append]
        · rw [if_neg h3] at h
          exact absurd h (by simp)
      · rw [if_neg h2] at h
        exact absurd h (by simp)
    · rw [if_neg h1] at h
      exact absurd h (by simp)

/-- `resample` returns exactly the requested number of samples. -/
lemma resample_length (audio : List ℚ) (num : ℕ) :
    (resample audio num).length = num := by
  simp [resample]

/-- `hasSub` is exactly contiguous-substring occurrence. -/
lemma hasSub_iff (p l : List Char) :
    hasSub p l = true ↔ ∃ l1 l2, l = l1 ++ p ++ l2 := by
  induction l with
  | nil =>
    constructor
    · intro h
      have hp : p = [] := by
        simpa [hasSub, List.isEmpty_iff] using h
      exact ⟨[], [], by simp [hp]⟩
    · rintro ⟨l1, l2, hl⟩
      have h1 := hl.symm
      simp only [List.append_assoc, List.append_eq_nil] at h1
      simp [hasSub, h1.2.1]
  | cons c rest ih =>
    constructor
    · intro h
      rw [hasSub, Bool.or_eq_true] at h
      rcases h with h | h
      · obtain ⟨t, ht⟩ := List.isPrefixOf_iff_prefix.1 h
        exact ⟨[], t, by simp [← ht]⟩
      · obtain ⟨l1, l2, hl⟩ := ih.1 h
        exact ⟨c :: l1, l2, by simp [hl]⟩
    · rintro ⟨l1, l2, hl⟩
      rw [hasSub, Bool.or_eq_true]
      match l1, hl with
      | [], hl =>
        left
        refine List.isPrefixOf_iff_prefix.2 ⟨l2, ?_⟩
        simpa using hl.symm
      | a :: l1, hl =>
        right
        have : rest = l1 ++ p ++ l2 := by
          have := List.cons.inj hl
          simpa using this.2
        exact ih.2 ⟨l1, l2, this⟩

/-- `strContains` agrees with the declarative substring relation. -/
lemma strContains_iff (p s : String) :
    strContains p s = true ↔ SubstringOf p s :=
  hasSub_iff p.data s.data

/-! ### Claim theorems -/

/-- C1: for every rate string matching `^[+-]\d+%$` with percent value N,
`parse_rate` returns exactly `1 + N/100` when the sign is `+` and
`1 - N/100` when the sign is `-`. -/
theorem parse_rate_signed_percent (sign : Char) (ds : List Char)
    (hsign : sign = '+' ∨ sign = '-') (hne : ds ≠ [])
    (hdig : ∀ c ∈ ds, c.isDigit = true) :
    parse_rate (String.mk (sign :: ds ++ ['%'])) =
      if sign = '+' then 1 + (digitsVal ds : ℚ) / 100
      else 1 - (digitsVal ds : ℚ) / 100 :=
  parse_rate_form_eval sign ds hsign hne hdig

/-- Witness for C1: `parse_rate "+50%" = 1.5`. -/
theorem parse_rate_signed_percent_witness :
    (('+' : Char) = '+' ∨ ('+' : Char) = '-') ∧
      (['5', '0'] : List Char) ≠ [] ∧
      (∀ c ∈ (['5', '0'] : List Char), c.isDigit = true) ∧
      parse_rate "+50%" = 3 / 2 := by
  refine ⟨Or.inl rfl, by decide, by decide, ?_⟩
  have h := parse_rate_signed_percent '+' ['5', '0'] (Or.inl rfl) (by decide)
    (by decide)
  rw [show String.mk ('+' :: ['5', '0'] ++ ['%']) = "+50%" from rfl] at h
  rw [h, if_pos rfl]
  norm_num [show digitsVal ['5', '0'] = 50 from by decide]

/-- C2 counterexample: on a 3-sample input with factor 2 the output length
is `int(3/2) = 1`, not `round(3/2) = 2` as the claim states. -/
theorem time_stretch_round_cex :
    ((time_stretch ([0, 0, 0] : List ℚ) 2).length : ℤ) ≠
      round ((([0, 0, 0] : List ℚ).length : ℚ) / 2) := by
  have h1 : (time_stretch ([0, 0, 0] : List ℚ) 2).length = 1 := by
    unfold time_stretch
    rw [if_neg (by norm_num : ¬(2 : ℚ) = 1), resample_length]
    norm_num [pyTrunc]
  have h2 : round ((([0, 0, 0] : List ℚ).length : ℚ) / 2) = 2 := by
    norm_num [round_eq]
  rw [h1, h2]
  norm_num

/-- C2 (amended): for every factor other than 1.0 the output length is
`int(len(audio)/factor)`, truncation toward zero rather than rounding; in
particular factor 2.0 on a 1000-sample input yields 500 samples. -/
theorem time_stretch_length_trunc :
    (∀ (audio : List ℚ) (f : ℚ), f ≠ 1 →
      (time_stretch audio f).length = (pyTrunc ((audio.length : ℚ) / f)).toNat) ∧
      (time_stretch (List.replicate 1000 (0 : ℚ)) 2).length = 500 := by
  constructor
  · intro audio f hf
    unfold time_stretch
    rw [if_neg hf, resample_length]
  · unfold time_stretch
    rw [if_neg (by norm_num : ¬(2 : ℚ) = 1), resample_length]
    norm_num [pyTrunc]
    rfl

/-- Witness for C2 (amended): a 3-sample input at factor 2 keeps
`int(3/2) = 1` samples. -/
theorem time_stretch_length_trunc_witness :
    ((2 : ℚ) ≠ 1) ∧
      (time_stretch ([0, 0, 0] : List ℚ) 2).length =
        (pyTrunc ((([0, 0, 0] : List ℚ).length : ℚ) / 2)).toNat :=
  ⟨by norm_num, time_stretch_length_trunc.1 [0, 0, 0] 2 (by norm_num)⟩

/-- C3: the help text advertises plain numeric rate strings such as
`"1.5"`, but `parse_rate` does not match them and silently returns the
identity multiplier `1.0` instead of the denoted value `1.5`. -/
theorem parse_rate_numeric_ignored :
    parse_rate "1.5" = 1 ∧ (1 : ℚ) ≠ 3 / 2 := by
  constructor
  · unfold parse_rate
    rw [show "1.5".data = ['1', '.', '5'] from rfl]
    norm_num [parseRateChars,
      show matchSignedPercent ['1', '.', '5'] = none from by decide]
  · norm_num

/-- C7: every input that is empty or fails the regex shape yields the
identity multiplier `1.0` (and `parse_rate` is total, so no error is
possible). -/
theorem parse_rate_nonmatching :
    parse_rate "" = 1 ∧
      ∀ s : String, (∀ sign ds, ¬ RateForm s.data sign ds) → parse_rate s = 1 := by
  constructor
  · rfl
  · intro s hforms
    unfold parse_rate
    rcases hm : matchSignedPercent s.data with _ | ⟨sign, n⟩
    · simp [parseRateChars, hm]
    · exfalso
      obtain ⟨ds, hform, -⟩ := rateForm_of_match hm
      exact hforms sign ds hform

/-- Witness for C7: `"50%"` (missing sign) does not match and yields 1. -/
theorem parse_rate_nonmatching_witness :
    (∀ sign ds, ¬ RateForm ("50%".data) sign ds) ∧ parse_rate "50%" = 1 := by
  have hforms : ∀ sign ds, ¬ RateForm ("50%".data) sign ds := by
    rintro sign ds ⟨hs, -, -, he⟩
    rw [show "50%".data = ['5', '0', '%'] from rfl, List.cons_append] at he
    have h5 : '5' = sign := (List.cons.inj he).1
    rcases hs with h | h <;> rw [h] at h5 <;> exact absurd h5 (by decide)
  exact ⟨hforms, parse_rate_nonmatching.2 "50%" hforms⟩

/-- C8: `time_stretch` at factor 1.0 returns the input list itself
(the early-return branch), so length and contents are unchanged. -/
theorem time_stretch_one_identity :
    ∀ audio : List ℚ, time_stretch audio 1 = audio := by
  intro audio
  simp [time_stretch]

/-- C9: `parse_rate "-100%"` is exactly 0; every `-N%` with `N > 100`
gives a negative multiplier; and because `wrap_with_ssml` tests the rate
for Python truthiness, a multiplier of exactly 0 yields a plain
non-SSML request. -/
theorem rate_minus_100_percent :
    parse_rate "-100%" = 0 ∧
      (∀ ds : List Char, ds ≠ [] → (∀ c ∈ ds, c.isDigit = true) →
        100 < digitsVal ds → parse_rate (String.mk ('-' :: ds ++ ['%'])) < 0) ∧
      ∀ text : String, wrap_with_ssml text (some 0) (some 1) = (text, false) := by
  refine ⟨?_, ?_, ?_⟩
  · unfold parse_rate
    rw [show "-100%".data = ['-', '1', '0', '0', '%'] from rfl]
    norm_num [parseRateChars,
      show matchSignedPercent ['-', '1', '0', '0', '%'] = some ('-', 100) from
        by decide]
    decide
  · intro ds hne hdig hv
    have h := parse_rate_form_eval '-' ds (Or.inr rfl) hne hdig
    rw [h, if_neg (by decide : ¬('-' : Char) = '+')]
    have hq : (100 : ℚ) < (digitsVal ds : ℚ) := by exact_mod_cast hv
    linarith
  · intro text
    norm_num [wrap_with_ssml, pyTruthy, ssml_pitch_to_keyword]

/-- Witness for C9: `parse_rate "-101%"` is negative. -/
theorem rate_minus_100_percent_witness :
    ((['1', '0', '1'] : List Char) ≠ [] ∧
      (∀ c ∈ (['1', '0', '1'] : List Char), c.isDigit = true) ∧
      100 < digitsVal ['1', '0', '1']) ∧
      parse_rate (String.mk ('-' :: ['1', '0', '1'] ++ ['%'])) < 0 :=
  ⟨⟨by decide, by decide, by decide⟩,
    rate_minus_100_percent.2.1 ['1', '0', '1'] (by decide) (by decide) (by decide)⟩

/-- C4 counterexample: a multiplier of exactly 0.6 maps to `"x-slow"`,
the extreme bottom tier, not to `"slow"` as the claim states. -/
theorem rate_boundary_cex :
    ssml_rate_to_keyword (6/10) = "x-slow" ∧
      ssml_rate_to_keyword (6/10) ≠ "slow" := by
  have h : ssml_rate_to_keyword (6/10) = "x-slow" := by
    norm_num [ssml_rate_to_keyword]
  refine ⟨h, ?_⟩
  rw [h]
  decide

/-- C4 (amended): both keyword mappings are monotone in the level order
x-slow/x-low < slow/low < medium < fast/high < x-fast/x-high; the boundary
value 0.6 maps to the extreme bottom tier (x-slow/x-low, since the 0.6
threshold is inclusive), and 1.0 always maps to "medium". -/
theorem prosody_mapping_monotone :
    (∀ m1 m2 : ℚ, m1 ≤ m2 →
      prosodyLevel (ssml_rate_to_keyword m1) ≤ prosodyLevel (ssml_rate_to_keyword m2)) ∧
      (∀ m1 m2 : ℚ, m1 ≤ m2 →
        prosodyLevel (ssml_pitch_to_keyword m1) ≤ prosodyLevel (ssml_pitch_to_keyword m2)) ∧
      ssml_rate_to_keyword (6/10) = "x-slow" ∧
      ssml_pitch_to_keyword (6/10) = "x-low" ∧
      ssml_rate_to_keyword 1 = "medium" ∧
      ssml_pitch_to_keyword 1 = "medium" := by
  refine ⟨?_, ?_, ?_, ?_, ?_, ?_⟩
  · intro m1 m2 h
    simp only [ssml_rate_to_keyword]
    split_ifs <;> first | decide | linarith
  · intro m1 m2 h
    simp only [ssml_pitch_to_keyword]
    split_ifs <;> first | decide | linarith
  · norm_num [ssml_rate_to_keyword]
  · norm_num [ssml_pitch_to_keyword]
  · norm_num [ssml_rate_to_keyword]
  · norm_num [ssml_pitch_to_keyword]

/-- Witness for C4 (amended): monotonicity applied at 0.5 ≤ 2. -/
theorem prosody_mapping_monotone_witness :
    ((1 : ℚ)/2 ≤ 2) ∧
      prosodyLevel (ssml_rate_to_keyword (1/2)) ≤
        prosodyLevel (ssml_rate_to_keyword 2) :=
  ⟨by norm_num, prosody_mapping_monotone.1 (1/2) 2 (by norm_num)⟩

/-- C5: the fixed classification thresholds — `m ≤ 0.6` bottom tier,
`0.6 < m ≤ 0.8` slow/low, `0.8 < m ≤ 1.2` medium, `1.2 < m ≤ 1.5`
fast/high, `1.5 < m` top tier; in particular pitch 1.8 is `"x-high"`. -/
theorem prosody_thresholds :
    (∀ m : ℚ,
      (m ≤ 6/10 → ssml_rate_to_keyword m = "x-slow" ∧ ssml_pitch_to_keyword m = "x-low") ∧
      (6/10 < m → m ≤ 8/10 → ssml_rate_to_keyword m = "slow" ∧ ssml_pitch_to_keyword m = "low") ∧
      (8/10 < m → m ≤ 12/10 → ssml_rate_to_keyword m = "medium" ∧ ssml_pitch_to_keyword m = "medium") ∧
      (12/10 < m → m ≤ 15/10 → ssml_rate_to_keyword m = "fast" ∧ ssml_pitch_to_keyword m = "high") ∧
      (15/10 < m → ssml_rate_to_keyword m = "x-fast" ∧ ssml_pitch_to_keyword m = "x-high")) ∧
      ssml_pitch_to_keyword (18/10) = "x-high" := by
  constructor
  · intro m
    refine ⟨fun h1 => ⟨?_, ?_⟩, fun h1 h2 => ⟨?_, ?_⟩, fun h1 h2 => ⟨?_, ?_⟩,
      fun h1 h2 => ⟨?_, ?_⟩, fun h1 => ⟨?_, ?_⟩⟩ <;>
    · simp only [ssml_rate_to_keyword, ssml_pitch_to_keyword]
      split_ifs <;> first | rfl | linarith
  · norm_num [ssml_pitch_to_keyword]

/-- Witness for C5: 0.7 lies in the second bucket and maps to slow/low. -/
theorem prosody_thresholds_witness :
    ((6 : ℚ)/10 < 7/10 ∧ (7 : ℚ)/10 ≤ 8/10) ∧
      ssml_rate_to_keyword (7/10) = "slow" ∧
      ssml_pitch_to_keyword (7/10) = "low" := by
  refine ⟨⟨by norm_num, by norm_num⟩, ?_⟩
  exact (prosody_thresholds.1 (7/10)).2.1 (by norm_num) (by norm_num)

/-- C6: each written sample is `x*32767` truncated toward zero and wrapped
modulo 2^16 into the signed 16-bit range; there is no clipping guard, so
the out-of-range sample 2.0 wraps to -2 instead of saturating at 32767. -/
theorem quantize_wraps :
    (∀ x : ℚ, quantizeSample x =
      (if pyTrunc (x * 32767) % 65536 < 32768 then pyTrunc (x * 32767) % 65536
       else pyTrunc (x * 32767) % 65536 - 65536)) ∧
      (1 < (2 : ℚ)) ∧ quantizeSample 2 = -2 ∧ quantizeSample 2 ≠ 32767 := by
  have h2 : quantizeSample 2 = -2 := by
    norm_num [quantizeSample, np_astype_int16, pyTrunc]
  refine ⟨fun x => rfl, by norm_num, h2, ?_⟩
  rw [h2]
  decide

/-- C10: model selection is pure substring containment on the model id,
`'ru'` checked before `'en'`: any id containing `"ru"` loads `v5_ru`
(so `"v3_1_ru"` silently loads `v5_ru`), any id containing `"en"` but not
`"ru"` loads `v3_en`, and anything else is an error. -/
theorem model_selection :
    (∀ mid : String, SubstringOf "ru" mid →
      chooseModel mid = Except.ok ("ru", "v5_ru")) ∧
      (∀ mid : String, ¬ SubstringOf "ru" mid → SubstringOf "en" mid →
        chooseModel mid = Except.ok ("en", "v3_en")) ∧
      (∀ mid : String, ¬ SubstringOf "ru" mid → ¬ SubstringOf "en" mid →
        chooseModel mid = Except.error ("Unknown language in model: " ++ mid)) ∧
      chooseModel "v3_1_ru" = Except.ok ("ru", "v5_ru") := by
  refine ⟨?_, ?_, ?_, ?_⟩
  · intro mid h
    have hb : strContains "ru" mid = true := (strContains_iff _ _).2 h
    simp [chooseModel, hb]
  · intro mid h1 h2
    have hb1 : strContains "ru" mid = false :=
      Bool.eq_false_iff.2 fun hb => h1 ((strContains_iff _ _).1 hb)
    have hb2 : strContains "en" mid = true := (strContains_iff _ _).2 h2
    simp [chooseModel, hb1, hb2]
  · intro mid h1 h2
    have hb1 : strContains "ru" mid = false :=
      Bool.eq_false_iff.2 fun hb => h1 ((strContains_iff _ _).1 hb)
    have hb2 : strContains "en" mid = false :=
      Bool.eq_false_iff.2 fun hb => h2 ((strContains_iff _ _).1 hb)
    simp [chooseModel, hb1, hb2]
  · have hb : strContains "ru" "v3_1_ru" = true := by decide
    simp [chooseModel, hb]

/-- Witness for C10: `"v5_ru"` contains `"ru"` and loads `v5_ru`. -/
theorem model_selection_witness :
    SubstringOf "ru" "v5_ru" ∧
      chooseModel "v5_ru" = Except.ok ("ru", "v5_ru") := by
  have h : SubstringOf "ru" "v5_ru" := ⟨['v', '5', '_'], [], rfl⟩
  exact ⟨h, model_selection.1 "v5_ru" h⟩
